import Mathlib

/-!
# MemoBot reminder engine — shallow embedding

A shallow embedding of `src/main.py` (the reminder scheduling and
persistence engine of the MemoBot repository), together with theorems
settling the specification claims about it.

Modelling conventions:
* Python `datetime.datetime` values are records of seven `Nat` fields;
  Python compares datetimes lexicographically on
  `(year, month, day, hour, minute, second, microsecond)`, which
  `DateTime.lt` reproduces.
* The SQLite table `reminders` is a list of rows; the `reminder_date`
  column holds the ISO string produced by `datetime.isoformat()`, exactly
  as `add_reminder_to_db` stores it.  `datetime.fromisoformat` is embedded
  as a positional parser of that exact format (the only format this
  program ever writes), including the constructor range validation.
* The asyncio tasks spawned by `schedule_reminder` become an explicit
  transition system `Step` on a state carrying the table, the per-task
  phases and the log of successfully delivered notifications.
-/

/-- Python `datetime.datetime`: the seven comparison-relevant fields
(this program never attaches a timezone). -/
structure DateTime where
  year : Nat
  month : Nat
  day : Nat
  hour : Nat
  minute : Nat
  second : Nat
  microsecond : Nat
deriving DecidableEq, Repr

/-- Python comparison `a < b` on naive datetimes: lexicographic on the
seven fields. -/
def DateTime.lt (a b : DateTime) : Bool :=
  if a.year ≠ b.year then decide (a.year < b.year)
  else if a.month ≠ b.month then decide (a.month < b.month)
  else if a.day ≠ b.day then decide (a.day < b.day)
  else if a.hour ≠ b.hour then decide (a.hour < b.hour)
  else if a.minute ≠ b.minute then decide (a.minute < b.minute)
  else if a.second ≠ b.second then decide (a.second < b.second)
  else decide (a.microsecond < b.microsecond)

/-- Python `calendar`-style leap-year test used by `datetime`. -/
def isLeap (y : Nat) : Bool :=
  y % 4 == 0 && (y % 100 != 0 || y % 400 == 0)

/-- Days in a month, as in CPython `datetime._days_in_month`. -/
def daysInMonth (y m : Nat) : Nat :=
  if m = 2 then (if isLeap y then 29 else 28)
  else if m = 4 ∨ m = 6 ∨ m = 9 ∨ m = 11 then 30
  else 31

/-- The range validation performed by the `datetime.datetime` constructor
(`MINYEAR = 1`, `MAXYEAR = 9999`). -/
def DateTime.valid (d : DateTime) : Prop :=
  1 ≤ d.year ∧ d.year ≤ 9999 ∧ 1 ≤ d.month ∧ d.month ≤ 12 ∧
  1 ≤ d.day ∧ d.day ≤ daysInMonth d.year d.month ∧
  d.hour ≤ 23 ∧ d.minute ≤ 59 ∧ d.second ≤ 59 ∧ d.microsecond ≤ 999999

instance (d : DateTime) : Decidable d.valid := by
  unfold DateTime.valid; infer_instance

/-- `date - timedelta(days=1)` restricted to the date fields: previous
calendar day of a valid date. -/
def prevDate (y m d : Nat) : Nat × Nat × Nat :=
  if 2 ≤ d then (y, m, d - 1)
  else if 2 ≤ m then (y, m - 1, daysInMonth y (m - 1))
  else (y - 1, 12, 31)

/-! ## ISO 8601 serialization (`datetime.isoformat` / `fromisoformat`) -/

/-- The character for decimal digit `n % 10`. -/
def digitChar (n : Nat) : Char := Char.ofNat (48 + n % 10)

/-- Zero-padded fixed-width decimal rendering, most significant digit
first (C `%0wd` for in-range values). -/
def pad : Nat → Nat → List Char
  | 0, _ => []
  | w + 1, n => digitChar (n / 10 ^ w) :: pad w n

def isDigitChar (c : Char) : Bool := 48 ≤ c.toNat && c.toNat ≤ 57

def digitVal (c : Char) : Nat := c.toNat - 48

/-- Read exactly `w` decimal digits, accumulating onto `acc`. -/
def parseFixed : Nat → List Char → Nat → Option (Nat × List Char)
  | 0, cs, acc => some (acc, cs)
  | _ + 1, [], _ => none
  | w + 1, c :: cs, acc =>
    if isDigitChar c then parseFixed w cs (acc * 10 + digitVal c) else none

def expectChar (c : Char) : List Char → Option (List Char)
  | [] => none
  | x :: xs => if x = c then some xs else none

/-- `datetime.isoformat` prints `.ffffff` only when the microsecond field
is nonzero. -/
def microSuffix (u : Nat) : List Char :=
  if u = 0 then [] else '.' :: pad 6 u

/-- Character list of `datetime.isoformat()` : `YYYY-MM-DDTHH:MM:SS[.ffffff]`. -/
def isoformatL (d : DateTime) : List Char :=
  pad 4 d.year ++ '-' ::
    (pad 2 d.month ++ '-' ::
      (pad 2 d.day ++ 'T' ::
        (pad 2 d.hour ++ ':' ::
          (pad 2 d.minute ++ ':' ::
            (pad 2 d.second ++ microSuffix d.microsecond)))))

/-- `datetime.isoformat()`. -/
def isoformat (d : DateTime) : String :=
  String.mk (isoformatL d)

/-- Trailing microsecond component: absent, or `.` plus six digits. -/
def parseMicro : List Char → Option Nat
  | [] => some 0
  | c :: cs =>
    if c = '.' then
      match parseFixed 6 cs 0 with
      | some (u, []) => some u
      | _ => none
    else none

/-- The `datetime` constructor call at the end of parsing: range-checks
the fields. -/
def mkValid (y mo da h mi se u : Nat) : Option DateTime :=
  if DateTime.valid ⟨y, mo, da, h, mi, se, u⟩ then some ⟨y, mo, da, h, mi, se, u⟩
  else none

/-- `datetime.fromisoformat` on the exact output format of `isoformat`
(the only strings this program ever stores), as a parser over the
character list. -/
def parseISO (cs : List Char) : Option DateTime :=
  match parseFixed 4 cs 0 with
  | none => none
  | some (y, r1) =>
  match expectChar '-' r1 with
  | none => none
  | some r2 =>
  match parseFixed 2 r2 0 with
  | none => none
  | some (mo, r3) =>
  match expectChar '-' r3 with
  | none => none
  | some r4 =>
  match parseFixed 2 r4 0 with
  | none => none
  | some (da, r5) =>
  match expectChar 'T' r5 with
  | none => none
  | some r6 =>
  match parseFixed 2 r6 0 with
  | none => none
  | some (h, r7) =>
  match expectChar ':' r7 with
  | none => none
  | some r8 =>
  match parseFixed 2 r8 0 with
  | none => none
  | some (mi, r9) =>
  match expectChar ':' r9 with
  | none => none
  | some r10 =>
  match parseFixed 2 r10 0 with
  | none => none
  | some (se, r11) =>
  match parseMicro r11 with
  | none => none
  | some u => mkValid y mo da h mi se u

/-- `datetime.fromisoformat`. -/
def fromisoformat (s : String) : Option DateTime :=
  parseISO s.data

/-! ### Round-trip lemmas for the serialization -/

lemma digitChar_spec (m : Nat) :
    isDigitChar (digitChar m) = true ∧ digitVal (digitChar m) = m % 10 := by
  unfold digitChar isDigitChar digitVal
  have h : m % 10 < 10 := Nat.mod_lt _ (by norm_num)
  revert h
  generalize m % 10 = k
  intro h
  interval_cases k <;> exact ⟨by decide, by decide⟩

lemma mod_mul_split (n a b : Nat) : n % (a * b) = a * (n / a % b) + n % a := by
  conv_lhs => rw [← Nat.div_add_mod (n % (a * b)) a]
  rw [Nat.mod_mul_right_div_self, Nat.mod_mod_of_dvd n ⟨b, rfl⟩]

lemma parseFixed_pad (w : Nat) : ∀ (n acc : Nat) (rest : List Char),
    parseFixed w (pad w n ++ rest) acc = some (acc * 10 ^ w + n % 10 ^ w, rest) := by
  induction w with
  | zero =>
    intro n acc rest
    simp [pad, parseFixed, Nat.mod_one]
  | succ w ih =>
    intro n acc rest
    have hd := digitChar_spec (n / 10 ^ w)
    simp only [pad, List.cons_append, parseFixed, hd.1, if_true, hd.2, List.append_eq]
    rw [ih]
    have hsplit : n % 10 ^ (w + 1) = 10 ^ w * (n / 10 ^ w % 10) + n % 10 ^ w := by
      rw [pow_succ]
      exact mod_mul_split n (10 ^ w) 10
    rw [hsplit]
    congr 2
    ring

lemma expectChar_cons (c : Char) (rest : List Char) :
    expectChar c (c :: rest) = some rest := by
  simp [expectChar]

/-- Lossless round-trip: parsing the ISO rendering of a valid datetime
recovers it exactly. -/
lemma fromisoformat_isoformat (d : DateTime) (h : d.valid) :
    fromisoformat (isoformat d) = some d := by
  obtain ⟨h1, h2, h3, h4, h5, h6, h7, h8, h9, h10⟩ := h
  have hy : d.year % 10 ^ 4 = d.year := Nat.mod_eq_of_lt (by omega)
  have hmo : d.month % 10 ^ 2 = d.month := Nat.mod_eq_of_lt (by omega)
  have hda : d.day % 10 ^ 2 = d.day := by
    have h31 : d.day ≤ 31 := le_trans h6 (by unfold daysInMonth; split <;> split <;> omega)
    exact Nat.mod_eq_of_lt (by omega)
  have hh : d.hour % 10 ^ 2 = d.hour := Nat.mod_eq_of_lt (by omega)
  have hmi : d.minute % 10 ^ 2 = d.minute := Nat.mod_eq_of_lt (by omega)
  have hse : d.second % 10 ^ 2 = d.second := Nat.mod_eq_of_lt (by omega)
  have hu : d.microsecond % 10 ^ 6 = d.microsecond := Nat.mod_eq_of_lt (by omega)
  have hmicro : parseMicro (microSuffix d.microsecond) = some d.microsecond := by
    by_cases hz : d.microsecond = 0
    · simp [microSuffix, parseMicro, hz]
    · unfold microSuffix
      rw [if_neg hz]
      simp only [parseMicro, if_true]
      rw [← List.append_nil (pad 6 d.microsecond), parseFixed_pad]
      simp only [Nat.zero_mul, Nat.zero_add, hu]
  have hv : DateTime.valid ⟨d.year, d.month, d.day, d.hour, d.minute, d.second, d.microsecond⟩ :=
    ⟨h1, h2, h3, h4, h5, h6, h7, h8, h9, h10⟩
  show parseISO (isoformatL d) = some d
  unfold parseISO isoformatL
  simp only [parseFixed_pad, expectChar_cons, Nat.zero_mul, Nat.zero_add,
    hy, hmo, hda, hh, hmi, hse, hmicro, mkValid, hv, if_true]

/-- On valid datetimes the ISO rendering is injective. -/
lemma isoformat_inj {a b : DateTime} (ha : a.valid) (hb : b.valid)
    (h : isoformat a = isoformat b) : a = b := by
  have := fromisoformat_isoformat a ha
  rw [h, fromisoformat_isoformat b hb] at this
  exact (Option.some_inj.mp this).symm

/-! ## Reminder Store (`reminders` table, src/main.py lines 21-87) -/

/-- A row of the SQLite `reminders` table.  `reminder_date` holds the ISO
string written by `add_reminder_to_db` (the AUTOINCREMENT `id` column is
never read back by the program and is omitted). -/
structure Row where
  chat_id : Int
  reminder_text : String
  reminder_date : String
deriving DecidableEq, Repr

/-- An in-memory reminder as the scheduler holds it: the arguments of
`schedule_reminder`. -/
structure Reminder where
  chat_id : Int
  reminder_text : String
  reminder_date : DateTime
deriving DecidableEq, Repr

/-- The row that `add_reminder_to_db` writes for a reminder. -/
def rowOf (c : Int) (t : String) (d : DateTime) : Row :=
  ⟨c, t, isoformat d⟩

/-- `add_reminder_to_db(chat_id, reminder_text, reminder_date)`:
`INSERT INTO reminders ... VALUES (?, ?, ?)` with
`reminder_date.isoformat()`; SQLite appends the new row. -/
def add_reminder_to_db (c : Int) (t : String) (d : DateTime) (rows : List Row) : List Row :=
  rows ++ [rowOf c t d]

/-- The `WHERE chat_id=? AND reminder_text=? AND reminder_date=?` match of
`remove_reminder_from_db` (the date bound as `reminder_date.isoformat()`). -/
def rowMatches (c : Int) (t : String) (d : DateTime) (row : Row) : Bool :=
  row.chat_id == c && row.reminder_text == t && row.reminder_date == isoformat d

/-- `remove_reminder_from_db(chat_id, reminder_text, reminder_date)`:
`DELETE FROM reminders WHERE chat_id=? AND reminder_text=? AND
reminder_date=?` — removes every row matching the exact triple. -/
def remove_reminder_from_db (c : Int) (t : String) (d : DateTime) (rows : List Row) : List Row :=
  rows.filter (fun row => !rowMatches c t d row)

/-- `get_pending_reminders()`: `SELECT` every row, parse each
`reminder_date` with `datetime.fromisoformat` (an unparsable row raises,
modelled as `none`), and keep exactly those with `reminder_date > now`. -/
def get_pending_reminders : List Row → DateTime → Option (List Reminder)
  | [], _ => some []
  | row :: rest, now =>
    match fromisoformat row.reminder_date with
    | none => none
    | some d =>
      match get_pending_reminders rest now with
      | none => none
      | some l =>
        some (if DateTime.lt now d then ⟨row.chat_id, row.reminder_text, d⟩ :: l else l)

/-! ## Dual-Reminder Deriver and submit path (`add_reminder`, lines 158-207) -/

/-- Lines 172-173: `if parsed_date.hour == 0 and parsed_date.minute == 0:
parsed_date = parsed_date.replace(hour=7, minute=0)`. -/
def applyDefaultTime (d : DateTime) : DateTime :=
  if d.hour == 0 && d.minute == 0 then { d with hour := 7, minute := 0 } else d

/-- Lines 183-184: `evening_date = parsed_date.date() - timedelta(days=1);
evening_dt = datetime.combine(evening_date, time(20, 0))`. -/
def eveningOf (d : DateTime) : DateTime :=
  let p := prevDate d.year d.month d.day
  ⟨p.1, p.2.1, p.2.2, 20, 0, 0, 0⟩

/-- Outcome of the submit-reminder handler, as replied to the user. -/
inductive AddResult where
  | parseFailure
  | pastDate
  | scheduled (morning : DateTime) (evening : Option DateTime)
deriving DecidableEq, Repr

/-- Full effect of one run of the `add_reminder` handler: the reply, the
table contents afterwards, and the reminders for which a
`schedule_reminder` task was created (in creation order). -/
structure AddOutcome where
  result : AddResult
  rows : List Row
  armed : List Reminder
deriving DecidableEq, Repr

/-- The `add_reminder` message handler (lines 158-207).  `parsed` is the
result of the external `dateparser.parse` call; `now = datetime.now()`
(line 170); `rows` is the table before the call. -/
def add_reminder (chat : Int) (text : String) (parsed : Option DateTime)
    (now : DateTime) (rows : List Row) : AddOutcome :=
  match parsed with
  | none => ⟨.parseFailure, rows, []⟩
  | some parsed_date0 =>
    let parsed_date := applyDefaultTime parsed_date0
    if DateTime.lt parsed_date now then ⟨.pastDate, rows, []⟩
    else
      let morning_dt := parsed_date
      let evening_dt := eveningOf parsed_date
      let rows1 := add_reminder_to_db chat text morning_dt rows
      let rows2 := if DateTime.lt now evening_dt then add_reminder_to_db chat text evening_dt rows1
                   else rows1
      ⟨.scheduled morning_dt (if DateTime.lt now evening_dt then some evening_dt else none),
       rows2,
       ⟨chat, text, morning_dt⟩ ::
         (if DateTime.lt now evening_dt then [⟨chat, text, evening_dt⟩] else [])⟩

/-! ## Scheduler (`schedule_reminder` tasks, lines 92-101, and startup,
lines 106-120)

Each `schedule_reminder` task sleeps until `reminder_date`, then
`await bot.send_message(...)` (the Notification Sink), then — only if the
send succeeded — synchronously calls `remove_reminder_from_db`.  The awaits
make delivery and deletion two separately observable transitions of the
shared state; a failing send raises, ending the task.  The timer itself
carries no logic (a non-positive delay merely skips the sleep), so expiry
is modelled as a nondeterministically enabled step. -/

inductive Phase where
  | waiting
  | delivered
  | done
  | failed
deriving DecidableEq, Repr

structure RemTask where
  rem : Reminder
  phase : Phase
deriving DecidableEq, Repr

/-- Shared state: the `reminders` table, the spawned tasks, and the log of
notifications successfully delivered by the sink. -/
structure SysState where
  rows : List Row
  tasks : List RemTask
  sent : List Reminder
deriving DecidableEq, Repr

/-- One scheduler transition.  `deliverOk`: a waiting task's
`bot.send_message` completes successfully.  `deliverFail`: it raises, the
task dies.  `deleteRec`: a task whose send completed resumes and runs
`remove_reminder_from_db` with its own `(chat_id, reminder_text,
reminder_date)`. -/
inductive Step : SysState → SysState → Prop
  | deliverOk (s : SysState) (pre post : List RemTask) (r : Reminder)
      (h : s.tasks = pre ++ ⟨r, .waiting⟩ :: post) :
      Step s ⟨s.rows, pre ++ ⟨r, .delivered⟩ :: post, s.sent ++ [r]⟩
  | deliverFail (s : SysState) (pre post : List RemTask) (r : Reminder)
      (h : s.tasks = pre ++ ⟨r, .waiting⟩ :: post) :
      Step s ⟨s.rows, pre ++ ⟨r, .failed⟩ :: post, s.sent⟩
  | deleteRec (s : SysState) (pre post : List RemTask) (r : Reminder)
      (h : s.tasks = pre ++ ⟨r, .delivered⟩ :: post) :
      Step s ⟨remove_reminder_from_db r.chat_id r.reminder_text r.reminder_date s.rows,
              pre ++ ⟨r, .done⟩ :: post, s.sent⟩

/-- Zero or more scheduler transitions. -/
def Reachable : SysState → SysState → Prop :=
  Relation.ReflTransGen Step

/-- Process startup (`main`, lines 106-120): `get_pending_reminders()`
then one `asyncio.create_task(schedule_reminder(...))` per returned
record; the table itself is not touched. -/
def startup (rows : List Row) (now : DateTime) : Option SysState :=
  match get_pending_reminders rows now with
  | none => none
  | some pending => some ⟨rows, pending.map (fun r => ⟨r, Phase.waiting⟩), []⟩

/-! ## Auxiliary definitions used by the theorems below -/

/-- Number of rows matching an exact `(chat_id, reminder_text,
reminder_date)` triple. -/
def countMatching (c : Int) (t : String) (d : DateTime) (rows : List Row) : Nat :=
  (rows.filter (fun row => rowMatches c t d row)).length

/-- The row a reminder is persisted as. -/
def rowEnc (r : Reminder) : Row :=
  rowOf r.chat_id r.reminder_text r.reminder_date

/-- Invariant used for the recovery claim: every task is for a
strictly-future valid timestamp, the past record `r` is still present,
and everything delivered so far was strictly future. -/
def RecoveryInv (now : DateTime) (r : Reminder) (s : SysState) : Prop :=
  (∀ t ∈ s.tasks, DateTime.lt now t.rem.reminder_date = true ∧ t.rem.reminder_date.valid)
  ∧ rowEnc r ∈ s.rows
  ∧ (∀ x ∈ s.sent, DateTime.lt now x.reminder_date = true)

/-- Concrete data for witnesses and counterexamples. -/
def demoDT : DateTime := ⟨2026, 10, 13, 20, 0, 0, 0⟩

def demoRem : Reminder := ⟨1, "meeting", demoDT⟩

def demoRow : Row := rowOf 1 "meeting" demoDT

/-- State with one stored reminder whose task has not yet fired. -/
def demoInit : SysState := ⟨[demoRow], [⟨demoRem, Phase.waiting⟩], []⟩

/-- State after the send succeeded but before the task resumed to delete:
the notification is delivered, the row still present. -/
def demoMid : SysState := ⟨[demoRow], [⟨demoRem, Phase.delivered⟩], [demoRem]⟩

def c1DT : DateTime := ⟨2026, 10, 12, 9, 30, 0, 0⟩

def c6future : Reminder := ⟨2, "fut", ⟨2026, 12, 1, 7, 0, 0, 0⟩⟩

def c6past : Reminder := ⟨2, "old", ⟨2020, 1, 1, 7, 0, 0, 0⟩⟩

def c6now : DateTime := ⟨2026, 10, 12, 9, 0, 0, 0⟩

/-! ## General lemmas -/

lemma DateTime.lt_irrefl (d : DateTime) : DateTime.lt d d = false := by
  unfold DateTime.lt
  simp

lemma applyDefaultTime_not_midnight (d : DateTime) :
    ¬((applyDefaultTime d).hour = 0 ∧ (applyDefaultTime d).minute = 0) := by
  unfold applyDefaultTime
  by_cases h : (d.hour == 0 && d.minute == 0) = true
  · simp [h]
  · rw [if_neg h]
    simp only [Bool.and_eq_true, beq_iff_eq] at h
    tauto

/-! ## C1 — rejection boundary of the submit path -/

/-- C1 (amended): the submit path rejects with `PastDate` — inserting no
record and arming no wait — exactly when the post-default timestamp is
strictly BEFORE `now`; a timestamp exactly equal to `now` is accepted
(line 175 tests `parsed_date < now`, not `<=`). -/
theorem pastDate_iff_strictly_before (chat : Int) (text : String)
    (parsed now : DateTime) (rows : List Row) :
    ((add_reminder chat text (some parsed) now rows).result = AddResult.pastDate
      ↔ DateTime.lt (applyDefaultTime parsed) now = true)
    ∧ ((add_reminder chat text (some parsed) now rows).result = AddResult.pastDate →
        (add_reminder chat text (some parsed) now rows).rows = rows
        ∧ (add_reminder chat text (some parsed) now rows).armed = []) := by
  unfold add_reminder
  by_cases h : DateTime.lt (applyDefaultTime parsed) now = true
  · simp [h]
  · rw [Bool.not_eq_true] at h
    simp [h]

/-- Witness for C1's amended theorem: a concrete strictly-past timestamp
is rejected. -/
theorem pastDate_iff_strictly_before_witness :
    (add_reminder 1 "w" (some ⟨2026, 1, 1, 10, 0, 0, 0⟩) c1DT []).result = AddResult.pastDate :=
  (pastDate_iff_strictly_before 1 "w" ⟨2026, 1, 1, 10, 0, 0, 0⟩ c1DT []).1.mpr (by decide)

/-- Counterexample to C1 as stated: a parsed timestamp exactly equal to
`now` is NOT strictly after `now`, yet the handler does not reject it (and
it mutates state). -/
theorem pastDate_claim_cex :
    DateTime.lt c1DT (applyDefaultTime c1DT) = false
    ∧ (add_reminder 1 "meeting" (some c1DT) c1DT []).result ≠ AddResult.pastDate
    ∧ (add_reminder 1 "meeting" (some c1DT) c1DT []).rows ≠ [] := by
  refine ⟨by decide, by decide, by decide⟩

/-! ## C2 — emission rule of the deriver -/

/-- C2: on every accepted input the handler emits the morning reminder
(= the post-default parsed timestamp) unconditionally, and the evening
reminder (= event date − 1 day, at 20:00) exactly when it is strictly
after `now`; both are persisted and armed in that order. -/
theorem deriver_emits (chat : Int) (text : String) (parsed now : DateTime)
    (rows : List Row)
    (hacc : DateTime.lt (applyDefaultTime parsed) now = false) :
    add_reminder chat text (some parsed) now rows =
      ⟨AddResult.scheduled (applyDefaultTime parsed)
         (if DateTime.lt now (eveningOf (applyDefaultTime parsed))
          then some (eveningOf (applyDefaultTime parsed)) else none),
       (if DateTime.lt now (eveningOf (applyDefaultTime parsed))
        then add_reminder_to_db chat text (eveningOf (applyDefaultTime parsed))
               (add_reminder_to_db chat text (applyDefaultTime parsed) rows)
        else add_reminder_to_db chat text (applyDefaultTime parsed) rows),
       Reminder.mk chat text (applyDefaultTime parsed) ::
         (if DateTime.lt now (eveningOf (applyDefaultTime parsed))
          then [Reminder.mk chat text (eveningOf (applyDefaultTime parsed))] else [])⟩ := by
  unfold add_reminder
  simp [hacc]

/-- Witness for C2, the spec's concrete case: now = Mon 09:00, parsed =
Tue 20:00; the evening reminder Mon 20:00 is still future, so both
Mon 20:00 and Tue 20:00 are persisted and armed. -/
theorem deriver_emits_witness :
    add_reminder 42 "meeting" (some ⟨2026, 10, 13, 20, 0, 0, 0⟩)
        ⟨2026, 10, 12, 9, 0, 0, 0⟩ [] =
      ⟨AddResult.scheduled ⟨2026, 10, 13, 20, 0, 0, 0⟩ (some ⟨2026, 10, 12, 20, 0, 0, 0⟩),
       [rowOf 42 "meeting" ⟨2026, 10, 13, 20, 0, 0, 0⟩,
        rowOf 42 "meeting" ⟨2026, 10, 12, 20, 0, 0, 0⟩],
       [Reminder.mk 42 "meeting" ⟨2026, 10, 13, 20, 0, 0, 0⟩,
        Reminder.mk 42 "meeting" ⟨2026, 10, 12, 20, 0, 0, 0⟩]⟩ := by
  rw [deriver_emits 42 "meeting" ⟨2026, 10, 13, 20, 0, 0, 0⟩
        ⟨2026, 10, 12, 9, 0, 0, 0⟩ [] (by decide)]
  decide

/-! ## C3 — default-time replacement happens first -/

/-- C3: on a parsed timestamp carrying the parser's midnight default
(00:00:00.000000), the whole handler behaves as if the input had
time-of-day 07:00:00.000000 — the replacement precedes validation and
derivation. -/
theorem default_time_first (chat : Int) (text : String) (parsed now : DateTime)
    (rows : List Row) (h0 : parsed.hour = 0) (h1 : parsed.minute = 0)
    (h2 : parsed.second = 0) (h3 : parsed.microsecond = 0) :
    add_reminder chat text (some parsed) now rows =
      add_reminder chat text
        (some ⟨parsed.year, parsed.month, parsed.day, 7, 0, 0, 0⟩) now rows := by
  have e1 : applyDefaultTime parsed = ⟨parsed.year, parsed.month, parsed.day, 7, 0, 0, 0⟩ := by
    unfold applyDefaultTime
    simp [h0, h1, h2, h3]
  have e2 : applyDefaultTime ⟨parsed.year, parsed.month, parsed.day, 7, 0, 0, 0⟩ =
      ⟨parsed.year, parsed.month, parsed.day, 7, 0, 0, 0⟩ := by
    unfold applyDefaultTime
    simp
  simp only [add_reminder, e1, e2]

/-- Witness for C3, the spec's concrete case: "12 February" parses to
Feb 12 00:00; with now = Feb 1 the handler yields morning Feb 12 07:00
and evening Feb 11 20:00, both emitted. -/
theorem default_time_first_witness :
    add_reminder 1 "t" (some ⟨2026, 2, 12, 0, 0, 0, 0⟩) ⟨2026, 2, 1, 10, 0, 0, 0⟩ [] =
      ⟨AddResult.scheduled ⟨2026, 2, 12, 7, 0, 0, 0⟩ (some ⟨2026, 2, 11, 20, 0, 0, 0⟩),
       [rowOf 1 "t" ⟨2026, 2, 12, 7, 0, 0, 0⟩, rowOf 1 "t" ⟨2026, 2, 11, 20, 0, 0, 0⟩],
       [Reminder.mk 1 "t" ⟨2026, 2, 12, 7, 0, 0, 0⟩,
        Reminder.mk 1 "t" ⟨2026, 2, 11, 20, 0, 0, 0⟩]⟩ := by
  rw [default_time_first 1 "t" ⟨2026, 2, 12, 0, 0, 0, 0⟩ ⟨2026, 2, 1, 10, 0, 0, 0⟩ []
        rfl rfl rfl rfl]
  decide

/-! ## C10 — the midnight-default rewrite, exactly -/

/-- C10: the rewrite triggers precisely on hour = 0 ∧ minute = 0 (there is
no way to distinguish an explicit 00:00 request), rewrites only the hour
and minute fields (seconds and microseconds survive), and consequently no
reminder the handler registers ever has hour = 0 ∧ minute = 0. -/
theorem midnight_rewrite (parsed : DateTime) :
    (parsed.hour = 0 → parsed.minute = 0 →
      applyDefaultTime parsed =
        ⟨parsed.year, parsed.month, parsed.day, 7, 0, parsed.second, parsed.microsecond⟩)
    ∧ (¬(parsed.hour = 0 ∧ parsed.minute = 0) → applyDefaultTime parsed = parsed)
    ∧ ∀ (chat : Int) (text : String) (now : DateTime) (rows : List Row) (r : Reminder),
        r ∈ (add_reminder chat text (some parsed) now rows).armed →
        ¬(r.reminder_date.hour = 0 ∧ r.reminder_date.minute = 0) := by
  refine ⟨?_, ?_, ?_⟩
  · intro h0 h1
    unfold applyDefaultTime
    simp [h0, h1]
  · intro h
    unfold applyDefaultTime
    rw [if_neg]
    simp only [Bool.and_eq_true, beq_iff_eq]
    tauto
  · intro chat text now rows r hr
    unfold add_reminder at hr
    by_cases hlt : DateTime.lt (applyDefaultTime parsed) now = true
    · simp [hlt] at hr
    · rw [Bool.not_eq_true] at hlt
      simp only [hlt, Bool.false_eq_true, if_false] at hr
      rcases List.mem_cons.mp hr with hm | he
      · rw [hm]
        exact applyDefaultTime_not_midnight parsed
      · by_cases hc : DateTime.lt now (eveningOf (applyDefaultTime parsed)) = true
        · simp only [hc, if_true, List.mem_singleton] at he
          rw [he]
          intro hmid
          exact absurd hmid.1 (by simp [eveningOf])
        · rw [Bool.not_eq_true] at hc
          simp [hc] at he

/-- Witness for C10: a midnight timestamp with 30 seconds keeps its
seconds through the rewrite, and a concrete armed pair never fires at
midnight. -/
theorem midnight_rewrite_witness :
    applyDefaultTime ⟨2026, 5, 5, 0, 0, 30, 0⟩ = ⟨2026, 5, 5, 7, 0, 30, 0⟩
    ∧ ¬((Reminder.mk 1 "m" ⟨2026, 5, 5, 7, 0, 30, 0⟩).reminder_date.hour = 0
        ∧ (Reminder.mk 1 "m" ⟨2026, 5, 5, 7, 0, 30, 0⟩).reminder_date.minute = 0) :=
  ⟨(midnight_rewrite ⟨2026, 5, 5, 0, 0, 30, 0⟩).1 rfl rfl,
   (midnight_rewrite ⟨2026, 5, 5, 0, 0, 30, 0⟩).2.2 1 "m" ⟨2026, 5, 1, 1, 0, 0, 0⟩ []
     (Reminder.mk 1 "m" ⟨2026, 5, 5, 7, 0, 30, 0⟩) (by decide)⟩

/-! ## C9 — deleteMatching is idempotent -/

/-- C9: after inserting a triple, one `remove_reminder_from_db` call with
that triple leaves zero matching rows, and a second identical call is a
no-op (deleting what is absent is not an error). -/
theorem deleteMatching_idempotent (c : Int) (t : String) (d : DateTime) (rows : List Row) :
    countMatching c t d (remove_reminder_from_db c t d (add_reminder_to_db c t d rows)) = 0
    ∧ remove_reminder_from_db c t d (remove_reminder_from_db c t d rows)
        = remove_reminder_from_db c t d rows := by
  constructor
  · unfold countMatching remove_reminder_from_db
    rw [List.filter_filter]
    simp
  · unfold remove_reminder_from_db
    rw [List.filter_filter]
    simp

/-! ## C8 — deleteMatching keys on the exact triple -/

/-- C8: deletion matches on the full `(chat_id, reminder_text,
reminder_date)` triple; a sibling row sharing chat and text but carrying a
different (valid) due timestamp is never touched, nor is any other
non-matching row, and no rows are invented. -/
theorem deleteMatching_exact_triple (c : Int) (t : String) (d1 d2 : DateTime)
    (rows : List Row) (h1 : d1.valid) (h2 : d2.valid) (hne : d1 ≠ d2) :
    rowMatches c t d1 (rowOf c t d2) = false
    ∧ (∀ row ∈ rows, rowMatches c t d1 row = false →
        row ∈ remove_reminder_from_db c t d1 rows)
    ∧ (rowOf c t d2 ∈ rows → rowOf c t d2 ∈ remove_reminder_from_db c t d1 rows)
    ∧ (∀ row ∈ remove_reminder_from_db c t d1 rows, row ∈ rows) := by
  have hiso : isoformat d2 ≠ isoformat d1 := by
    intro he
    exact hne (isoformat_inj h2 h1 he).symm
  have hmf : rowMatches c t d1 (rowOf c t d2) = false := by
    unfold rowMatches rowOf
    simp [hiso]
  refine ⟨hmf, ?_, ?_, ?_⟩
  · intro row hrow hm
    unfold remove_reminder_from_db
    exact List.mem_filter.mpr ⟨hrow, by simp [hm]⟩
  · intro hin
    unfold remove_reminder_from_db
    exact List.mem_filter.mpr ⟨hin, by simp [hmf]⟩
  · intro row hrow
    exact List.mem_of_mem_filter hrow

/-- Witness for C8: a concrete evening/morning pair for the same text;
deleting the morning one leaves the evening row in place. -/
theorem deleteMatching_exact_triple_witness :
    rowOf 7 "p" ⟨2026, 10, 12, 20, 0, 0, 0⟩ ∈
      remove_reminder_from_db 7 "p" ⟨2026, 10, 13, 20, 0, 0, 0⟩
        [rowOf 7 "p" ⟨2026, 10, 13, 20, 0, 0, 0⟩, rowOf 7 "p" ⟨2026, 10, 12, 20, 0, 0, 0⟩] :=
  (deleteMatching_exact_triple 7 "p" ⟨2026, 10, 13, 20, 0, 0, 0⟩ ⟨2026, 10, 12, 20, 0, 0, 0⟩
      [rowOf 7 "p" ⟨2026, 10, 13, 20, 0, 0, 0⟩, rowOf 7 "p" ⟨2026, 10, 12, 20, 0, 0, 0⟩]
      (by decide) (by decide) (by decide)).2.2.1 (by decide)

/-! ## C7 — insert/listFuture round-trip -/

/-- C7: for a valid future timestamp, the ISO string round-trips
losslessly, insert-then-list on an empty table returns exactly the
inserted triple, and on any table the inserted record appears in a
successful listing. -/
theorem insert_listFuture_roundtrip (c : Int) (t : String) (d now : DateTime)
    (rows : List Row) (hv : d.valid) (hf : DateTime.lt now d = true) :
    fromisoformat (isoformat d) = some d
    ∧ get_pending_reminders (add_reminder_to_db c t d []) now = some [⟨c, t, d⟩]
    ∧ ∀ l, get_pending_reminders (add_reminder_to_db c t d rows) now = some l →
        Reminder.mk c t d ∈ l := by
  have hrt : fromisoformat (isoformat d) = some d := fromisoformat_isoformat d hv
  have hbase : get_pending_reminders [rowOf c t d] now = some [⟨c, t, d⟩] := by
    simp only [get_pending_reminders, rowOf, hrt, hf, if_true]
  refine ⟨hrt, hbase, ?_⟩
  intro l h
  unfold add_reminder_to_db at h
  induction rows generalizing l with
  | nil =>
    rw [List.nil_append] at h
    rw [hbase] at h
    cases h
    exact List.mem_singleton.mpr rfl
  | cons row rest ih =>
    rw [List.cons_append] at h
    unfold get_pending_reminders at h
    cases hfi : fromisoformat row.reminder_date with
    | none => rw [hfi] at h; cases h
    | some d2 =>
      rw [hfi] at h
      cases hrec : get_pending_reminders (rest ++ [rowOf c t d]) now with
      | none => rw [hrec] at h; cases h
      | some l2 =>
        rw [hrec] at h
        have hmem : Reminder.mk c t d ∈ l2 := ih l2 hrec
        cases h
        by_cases hc : DateTime.lt now d2 = true
        · simp only [hc, if_true]
          exact List.mem_cons_of_mem _ hmem
        · rw [Bool.not_eq_true] at hc
          simp only [hc, Bool.false_eq_true, if_false]
          exact hmem

/-- Witness for C7 at concrete values. -/
theorem insert_listFuture_roundtrip_witness :
    fromisoformat (isoformat ⟨2026, 3, 1, 7, 0, 0, 0⟩) = some ⟨2026, 3, 1, 7, 0, 0, 0⟩
    ∧ get_pending_reminders (add_reminder_to_db 5 "x" ⟨2026, 3, 1, 7, 0, 0, 0⟩ [])
        ⟨2026, 2, 1, 10, 0, 0, 0⟩ = some [⟨5, "x", ⟨2026, 3, 1, 7, 0, 0, 0⟩⟩] :=
  ⟨(insert_listFuture_roundtrip 5 "x" ⟨2026, 3, 1, 7, 0, 0, 0⟩ ⟨2026, 2, 1, 10, 0, 0, 0⟩ []
      (by decide) (by decide)).1,
   (insert_listFuture_roundtrip 5 "x" ⟨2026, 3, 1, 7, 0, 0, 0⟩ ⟨2026, 2, 1, 10, 0, 0, 0⟩ []
      (by decide) (by decide)).2.1⟩

/-! ## C4 — firing and deletion are NOT one atomic transition -/

/-- Counterexample to C4 as stated: from a state with one stored reminder
and its waiting task, one `deliverOk` step (the `await bot.send_message`
completing) reaches a state in which the reminder has fired (it is in the
sink log) while its record is still present in the store. -/
theorem store_iff_unfired_cex :
    Reachable demoInit demoMid
    ∧ demoRem ∈ demoMid.sent
    ∧ rowEnc demoRem ∈ demoMid.rows := by
  refine ⟨Relation.ReflTransGen.single ?_, by decide, by decide⟩
  exact Step.deliverOk demoInit [] [] demoRem rfl

/-- C4 (amended): firing and deletion are two separate transitions — no
single step both records a delivery and removes rows.  A successful
delivery leaves the store untouched, and the later deletion step removes
every row matching the task's triple at once (so duplicates vanish
together). -/
theorem fire_then_delete_two_transitions (s s2 : SysState) (h : Step s s2) :
    (s2.rows = s.rows ∧ s2.sent = s.sent)
    ∨ (s2.rows = s.rows ∧ ∃ r : Reminder, s2.sent = s.sent ++ [r])
    ∨ (s2.sent = s.sent
       ∧ ∃ r : Reminder,
           s2.rows = remove_reminder_from_db r.chat_id r.reminder_text r.reminder_date s.rows
           ∧ ∀ row ∈ s2.rows, rowMatches r.chat_id r.reminder_text r.reminder_date row = false) := by
  cases h with
  | deliverOk pre post r hh => exact Or.inr (Or.inl ⟨rfl, r, rfl⟩)
  | deliverFail pre post r hh => exact Or.inl ⟨rfl, rfl⟩
  | deleteRec pre post r hh =>
    refine Or.inr (Or.inr ⟨rfl, r, rfl, ?_⟩)
    intro row hrow
    have hp := (List.mem_filter.mp hrow).2
    simpa using hp

/-- Witness for C4's amended theorem at the concrete delivery step. -/
theorem fire_then_delete_two_transitions_witness :
    (demoMid.rows = demoInit.rows ∧ demoMid.sent = demoInit.sent)
    ∨ (demoMid.rows = demoInit.rows ∧ ∃ r : Reminder, demoMid.sent = demoInit.sent ++ [r])
    ∨ (demoMid.sent = demoInit.sent
       ∧ ∃ r : Reminder,
           demoMid.rows = remove_reminder_from_db r.chat_id r.reminder_text r.reminder_date demoInit.rows
           ∧ ∀ row ∈ demoMid.rows, rowMatches r.chat_id r.reminder_text r.reminder_date row = false) :=
  fire_then_delete_two_transitions demoInit demoMid (Step.deliverOk demoInit [] [] demoRem rfl)

/-! ## C5 — deliver first, delete only after success, no retry -/

lemma delivered_in_sent_step {s s2 : SysState} (h : Step s s2)
    (inv : ∀ t ∈ s.tasks, (t.phase = Phase.delivered ∨ t.phase = Phase.done) → t.rem ∈ s.sent) :
    ∀ t ∈ s2.tasks, (t.phase = Phase.delivered ∨ t.phase = Phase.done) → t.rem ∈ s2.sent := by
  cases h with
  | deliverOk pre post r hh =>
    intro t ht hph
    simp only [List.mem_append, List.mem_cons] at ht
    rcases ht with h1 | h2 | h3
    · exact List.mem_append_left _ (inv t (by rw [hh]; simp [h1]) hph)
    · subst h2
      exact List.mem_append_right _ (List.mem_singleton.mpr rfl)
    · exact List.mem_append_left _ (inv t (by rw [hh]; simp [h3]) hph)
  | deliverFail pre post r hh =>
    intro t ht hph
    simp only [List.mem_append, List.mem_cons] at ht
    rcases ht with h1 | h2 | h3
    · exact inv t (by rw [hh]; simp [h1]) hph
    · subst h2
      rcases hph with hd | hd <;> simp at hd
    · exact inv t (by rw [hh]; simp [h3]) hph
  | deleteRec pre post r hh =>
    intro t ht hph
    simp only [List.mem_append, List.mem_cons] at ht
    rcases ht with h1 | h2 | h3
    · exact inv t (by rw [hh]; simp [h1]) hph
    · subst h2
      exact inv ⟨r, Phase.delivered⟩ (by rw [hh]; simp) (Or.inl rfl)
    · exact inv t (by rw [hh]; simp [h3]) hph

/-- C5: (i) starting from any all-waiting task set, a task in phase
`delivered`/`done` has its reminder in the sink log — the sink is invoked
before any deletion on that task's behalf; (ii) the only step that changes
the store is the post-delivery deletion, keyed on exactly the task's own
`(chat_id, reminder_text, reminder_date)`; (iii) a failed task is never
acted on again (no retry); (iv) on delivery failure the task just dies:
rows and sink log are unchanged, the record stays. -/
theorem fire_order_and_failure :
    (∀ s0 : SysState, (∀ t ∈ s0.tasks, t.phase = Phase.waiting) →
      ∀ s, Reachable s0 s → ∀ t ∈ s.tasks,
        (t.phase = Phase.delivered ∨ t.phase = Phase.done) → t.rem ∈ s.sent)
    ∧ (∀ s s2 : SysState, Step s s2 → s2.rows ≠ s.rows →
        ∃ pre post r, s.tasks = pre ++ ⟨r, Phase.delivered⟩ :: post
          ∧ s2 = ⟨remove_reminder_from_db r.chat_id r.reminder_text r.reminder_date s.rows,
                  pre ++ ⟨r, Phase.done⟩ :: post, s.sent⟩)
    ∧ (∀ s s2 : SysState, Step s s2 → ∀ r : Reminder,
        (⟨r, Phase.failed⟩ : RemTask) ∈ s.tasks → (⟨r, Phase.failed⟩ : RemTask) ∈ s2.tasks)
    ∧ (∀ (s : SysState) (pre post : List RemTask) (r : Reminder),
        s.tasks = pre ++ ⟨r, Phase.waiting⟩ :: post →
        Step s ⟨s.rows, pre ++ ⟨r, Phase.failed⟩ :: post, s.sent⟩) := by
  refine ⟨?_, ?_, ?_, ?_⟩
  · intro s0 hw s hreach
    unfold Reachable at hreach
    induction hreach with
    | refl =>
      intro t ht hph
      rcases hph with hd | hd <;> rw [hw t ht] at hd <;> simp at hd
    | tail hab hbc ih => exact delivered_in_sent_step hbc ih
  · intro s s2 hst hne
    cases hst with
    | deliverOk pre post r hh => exact absurd rfl hne
    | deliverFail pre post r hh => exact absurd rfl hne
    | deleteRec pre post r hh => exact ⟨pre, post, r, hh, rfl⟩
  · intro s s2 hst r hr
    cases hst with
    | deliverOk pre post r2 hh =>
      rw [hh] at hr
      simp only [List.mem_append, List.mem_cons] at hr ⊢
      rcases hr with h1 | h2 | h3
      · exact Or.inl h1
      · simp at h2
      · exact Or.inr (Or.inr h3)
    | deliverFail pre post r2 hh =>
      rw [hh] at hr
      simp only [List.mem_append, List.mem_cons] at hr ⊢
      rcases hr with h1 | h2 | h3
      · exact Or.inl h1
      · simp at h2
      · exact Or.inr (Or.inr h3)
    | deleteRec pre post r2 hh =>
      rw [hh] at hr
      simp only [List.mem_append, List.mem_cons] at hr ⊢
      rcases hr with h1 | h2 | h3
      · exact Or.inl h1
      · simp at h2
      · exact Or.inr (Or.inr h3)
  · intro s pre post r hh
    exact Step.deliverFail s pre post r hh

/-- Witness for C5: the failure step exists concretely, leaves the row in
place and logs nothing. -/
theorem fire_order_and_failure_witness :
    Step demoInit ⟨demoInit.rows, [⟨demoRem, Phase.failed⟩], demoInit.sent⟩ :=
  (fire_order_and_failure).2.2.2 demoInit [] [] demoRem rfl

/-! ## C6 — recovery arms exactly the strictly-future records -/

lemma get_pending_enc (now : DateTime) :
    ∀ rs : List Reminder, (∀ r ∈ rs, r.reminder_date.valid) →
      get_pending_reminders (rs.map rowEnc) now
        = some (rs.filter (fun r => DateTime.lt now r.reminder_date)) := by
  intro rs
  induction rs with
  | nil => intro h; rfl
  | cons r rest ih =>
    intro h
    have hval : r.reminder_date.valid := h r (List.mem_cons_self _ _)
    have hrt : fromisoformat (isoformat r.reminder_date) = some r.reminder_date :=
      fromisoformat_isoformat _ hval
    have ihv := ih (fun x hx => h x (List.mem_cons_of_mem _ hx))
    simp only [List.map_cons, get_pending_reminders, rowEnc, rowOf, hrt, ihv, List.filter_cons]

lemma RecoveryInv_step {now : DateTime} {r : Reminder} (hval : r.reminder_date.valid)
    (hpast : DateTime.lt now r.reminder_date = false)
    {s s2 : SysState} (hst : Step s s2) (inv : RecoveryInv now r s) :
    RecoveryInv now r s2 := by
  obtain ⟨htasks, hrow, hsent⟩ := inv
  cases hst with
  | deliverOk pre post r2 hh =>
    refine ⟨?_, hrow, ?_⟩
    · intro t ht
      simp only [List.mem_append, List.mem_cons] at ht
      rcases ht with h1 | h2 | h3
      · exact htasks t (by rw [hh]; simp [h1])
      · subst h2
        exact htasks ⟨r2, Phase.waiting⟩ (by rw [hh]; simp)
      · exact htasks t (by rw [hh]; simp [h3])
    · intro x hx
      simp only [List.mem_append, List.mem_singleton] at hx
      rcases hx with hx | hx
      · exact hsent x hx
      · subst hx
        exact (htasks ⟨x, Phase.waiting⟩ (by rw [hh]; simp)).1
  | deliverFail pre post r2 hh =>
    refine ⟨?_, hrow, hsent⟩
    intro t ht
    simp only [List.mem_append, List.mem_cons] at ht
    rcases ht with h1 | h2 | h3
    · exact htasks t (by rw [hh]; simp [h1])
    · subst h2
      exact htasks ⟨r2, Phase.waiting⟩ (by rw [hh]; simp)
    · exact htasks t (by rw [hh]; simp [h3])
  | deleteRec pre post r2 hh =>
    have hr2 := htasks ⟨r2, Phase.delivered⟩ (by rw [hh]; simp)
    refine ⟨?_, ?_, hsent⟩
    · intro t ht
      simp only [List.mem_append, List.mem_cons] at ht
      rcases ht with h1 | h2 | h3
      · exact htasks t (by rw [hh]; simp [h1])
      · subst h2
        exact htasks ⟨r2, Phase.delivered⟩ (by rw [hh]; simp)
      · exact htasks t (by rw [hh]; simp [h3])
    · unfold remove_reminder_from_db
      refine List.mem_filter.mpr ⟨hrow, ?_⟩
      have hneq : isoformat r.reminder_date ≠ isoformat r2.reminder_date := by
        intro he
        have heq := isoformat_inj hval hr2.2 he
        rw [heq, hr2.1] at hpast
        cases hpast
      simp [rowMatches, rowEnc, rowOf, beq_iff_eq, hneq]

/-- C6: recovery arms exactly one waiting task per stored record whose due
timestamp is strictly after `now` (none for a record at or before `now`),
and a past record is left in the store untouched and is never delivered in
any subsequent execution. -/
theorem recoverAll_spec (rs : List Reminder) (now : DateTime)
    (hval : ∀ r ∈ rs, r.reminder_date.valid) :
    startup (rs.map rowEnc) now =
      some ⟨rs.map rowEnc,
            (rs.filter (fun x => DateTime.lt now x.reminder_date)).map
              (fun x => ⟨x, Phase.waiting⟩),
            []⟩
    ∧ ∀ r ∈ rs, DateTime.lt now r.reminder_date = false →
        ∀ s, Reachable
              ⟨rs.map rowEnc,
               (rs.filter (fun x => DateTime.lt now x.reminder_date)).map
                 (fun x => ⟨x, Phase.waiting⟩),
               []⟩ s →
          rowEnc r ∈ s.rows ∧ r ∉ s.sent := by
  constructor
  · unfold startup
    rw [get_pending_enc now rs hval]
  · intro r hr hpast s hreach
    have hvalr := hval r hr
    unfold Reachable at hreach
    have hinv : RecoveryInv now r s := by
      induction hreach with
      | refl =>
        refine ⟨?_, ?_, ?_⟩
        · intro t ht
          simp only [List.mem_map] at ht
          obtain ⟨x, hx, rfl⟩ := ht
          have hm := List.mem_filter.mp hx
          exact ⟨hm.2, hval x hm.1⟩
        · exact List.mem_map_of_mem rowEnc hr
        · intro x hx
          cases hx
      | tail hab hbc ih => exact RecoveryInv_step hvalr hpast hbc ih
    obtain ⟨htasks, hrow, hsent⟩ := hinv
    refine ⟨hrow, ?_⟩
    intro hmem
    have hf := hsent r hmem
    rw [hf] at hpast
    cases hpast

/-- Witness for C6: a store with one future and one past reminder arms
exactly the future one; the past one stays stored and undelivered. -/
theorem recoverAll_spec_witness :
    (startup ([c6future, c6past].map rowEnc) c6now =
      some ⟨[c6future, c6past].map rowEnc, [⟨c6future, Phase.waiting⟩], []⟩)
    ∧ rowEnc c6past ∈ [rowEnc c6future, rowEnc c6past] := by
  have h := recoverAll_spec [c6future, c6past] c6now (by decide)
  constructor
  · rw [h.1]
    decide
  · exact (h.2 c6past (by decide) (by decide) _ Relation.ReflTransGen.refl).1
